import Mathlib

/-!
Shallow embedding of the AISEO fact-checker pipeline
(`knowledge_base.py`, `text_processor.py`, `verifier.py`, `main.py`).

Modelling conventions:
* Python strings are Lean `String`s where they are treated opaquely, and
  `List Char` where the code performs character surgery (`text_processor.py`).
* Embedding vectors are `List ℚ` (the real-valued vectors of the code, with
  exact arithmetic standing in for float arithmetic).
* Each external network call (OpenAI chat / embeddings, Cohere rerank) is an
  oracle field of `Ops`: an `Except String α` value, where `.error e` models
  the call raising an exception whose `str()` is `e`.
* The vector-index backend (the LanceDB library, external to the repository)
  is modelled as exact nearest-neighbour search over the stored records by
  squared L2 distance, with a `Bool` flag modelling a transient backend
  failure raised during `table.search(...).to_list()`.
* `verify_sentence` additionally returns a trace of the external calls it
  made, in order, so that claims about which stages run can be stated.
-/

/-- A text chunk handed to `KnowledgeBase.build` (dict with `source`/`text`). -/
structure Chunk where
  source : String
  text : String
deriving DecidableEq

/-- A row of the vector index (dict with `vector`/`text`/`source`). -/
structure Record where
  vector : List ℚ
  text : String
  source : String
deriving DecidableEq

/-- A piece of reranked evidence (dict with `text`/`source`),
built in Stage 2 of `verify_sentence`. -/
structure EvidenceItem where
  text : String
  source : String
deriving DecidableEq

/-- The `KnowledgeBase` class state: `self.table` is `None` until a
successful `build`. -/
structure KnowledgeBase where
  table : Option (List Record)
deriving DecidableEq

/-- The error categories distinguished by the message sniffing in
`KnowledgeBase.build`'s `except` block. -/
inductive BuildError where
  | RateLimited
  | Unauthorized
  | QuotaExceeded
  | Unknown
deriving DecidableEq

/-- The dictionary returned by `FactChecker.verify_sentence`.  All return
sites populate `score`, `decision` and `reason`; only the success path at
the end of Stage 3 populates `original_sentence` and `evidence`, so those
two keys are `Option`s (`none` = key absent from the Python dict). -/
structure VerdictDict where
  original_sentence : Option String
  score : ℤ
  decision : String
  reason : String
  evidence : Option (List EvidenceItem)
deriving DecidableEq

/-- One external call made by `verify_sentence`, for the call trace. -/
inductive Call where
  | chatHyde
  | embed (text : String)
  | search (topK : ℕ)
  | rerank (query : String) (docs : List String) (topN : ℕ)
  | chatVerify
deriving DecidableEq

/-- The external services consumed by one `verify_sentence` run:
`chatHyde` is the gpt-4o-mini HyDE completion, `embed` the
text-embedding-3-small call, `searchFail` whether the LanceDB backend
raises during search, `rerank` the Cohere rerank call (returning the
`hit.index` fields in service order), `cosine` the numpy
dot/norm computation on two vectors, and `chatVerify` the gpt-4o
adjudication call after `json.loads` (fields `decision`/`reason`, each
`none` when the key is missing; `.error` when the call or the parse
raises). -/
structure Ops where
  chatHyde : Except String String
  embed : String → Except String (List ℚ)
  searchFail : Bool
  rerank : String → List String → ℕ → Except String (List ℕ)
  cosine : List ℚ → List ℚ → ℚ
  chatVerify : Except String (Option String × Option String)

/-! ### String helpers (Python semantics) -/

/-- Whether `pat` is a prefix of `s` (character lists). -/
def startsWith : List Char → List Char → Bool
  | _, [] => true
  | [], _ :: _ => false
  | a :: s, b :: p => a = b && startsWith s p

/-- Whether `pat` occurs contiguously in `s` (character lists). -/
def containsSub : List Char → List Char → Bool
  | [], pat => startsWith [] pat
  | a :: rest, pat => startsWith (a :: rest) pat || containsSub rest pat

/-- Python `pat in s` substring test. -/
def containsSubstr (s pat : String) : Bool :=
  containsSub s.data pat.data

/-- The whitespace characters removed by Python `str.strip()`
(ASCII portion). -/
def pyIsSpace (c : Char) : Bool :=
  c = ' ' || c = '\t' || c = '\n' || c = '\r' || c = '\x0b' || c = '\x0c'

/-- Python `str.strip()` on a character list: drop leading and trailing
whitespace. -/
def pyStrip (l : List Char) : List Char :=
  ((l.dropWhile pyIsSpace).reverse.dropWhile pyIsSpace).reverse

/-- Python `s.split(sep)` for a one-character separator: split at every
occurrence, keeping empty parts (`"".split(c) = [""]`). -/
def splitOnChar (c : Char) : List Char → List (List Char)
  | [] => [[]]
  | x :: xs =>
    match splitOnChar c xs with
    | [] => [[]]
    | p :: ps => if x = c then [] :: p :: ps else (x :: p) :: ps

/-! ### `knowledge_base.py` -/

/-- Squared L2 distance between two vectors (LanceDB's default metric). -/
def distSq (u v : List ℚ) : ℚ :=
  ((u.zip v).map fun p => (p.1 - p.2) ^ 2).sum

/-- Exact nearest-neighbour search over the stored records: sort by
squared distance to the query ascending (most similar first), take
`top_k`.  Models `table.search(query_vector).limit(top_k).to_list()` of
the external LanceDB backend. -/
def knnSearch (records : List Record) (qv : List ℚ) (top_k : ℕ) : List Record :=
  (records.insertionSort fun a b => distSq qv a.vector ≤ distSq qv b.vector).take top_k

/-- `KnowledgeBase.search`: empty when `self.table is None`; the backend
call is wrapped in `try/except` returning `[]` on failure; otherwise the
`top_k` nearest records. -/
def KnowledgeBase.search (kb : KnowledgeBase) (backendFail : Bool)
    (qv : List ℚ) (top_k : ℕ) : List Record :=
  match kb.table with
  | none => []
  | some records => if backendFail then [] else knnSearch records qv top_k

/-- The message sniffing in `KnowledgeBase.build`'s `except` block:
`"429"` → rate limited, else `"401"` → unauthorized, else
`"insufficient_quota"` → quota exceeded, else unknown. -/
def classifyBuildError (msg : String) : BuildError :=
  if containsSubstr msg "429" then .RateLimited
  else if containsSubstr msg "401" then .Unauthorized
  else if containsSubstr msg "insufficient_quota" then .QuotaExceeded
  else .Unknown

/-- `KnowledgeBase.build`: early-returns (leaving `self.table` untouched)
on empty input; otherwise one batched embedding call (`embedResult`
models its outcome).  On its failure, or on an index error pairing
chunks with embeddings, `self.table = None` and the message is
classified; on success the table is replaced by one record per chunk in
input order. -/
def KnowledgeBase.build (kb : KnowledgeBase) (chunks : List Chunk)
    (embedResult : Except String (List (List ℚ))) :
    KnowledgeBase × Option BuildError :=
  if chunks = [] then (kb, none)
  else
    match embedResult with
    | .error e => (⟨none⟩, some (classifyBuildError e))
    | .ok embeddings =>
      if chunks.length ≤ embeddings.length then
        (⟨some ((chunks.zip embeddings).map fun p =>
          ⟨p.2, p.1.text, p.1.source⟩)⟩, none)
      else
        (⟨none⟩, some (classifyBuildError "list index out of range"))

/-! ### `text_processor.py` -/

/-- One run of the `while start_index < len(text)` loop of `chunk_text`,
with explicit fuel: `none` models non-termination within the given fuel.
`start` is an integer because `start_index += chunk_size - chunk_overlap`
can drive it negative when `chunk_overlap > chunk_size`. -/
def chunkGo (size overlap : ℤ) (text : List Char) : ℕ → ℤ → Option (List (List Char))
  | 0, start =>
    if start < (text.length : ℤ) then none else some []
  | fuel + 1, start =>
    if start < (text.length : ℤ) then
      (chunkGo size overlap text fuel (start + (size - overlap))).map
        fun rest => (text.drop start.toNat).take size.toNat :: rest
    else
      some []

/-- `chunk_text` on a document with non-empty text: run the chunking loop
from offset 0 with fuel `len(text)` (enough iterations whenever
`overlap < size`, see the termination theorem). -/
def chunk_text (text : List Char) (size overlap : ℤ) : Option (List (List Char)) :=
  if text = [] then some [] else chunkGo size overlap text text.length 0

/-- `split_into_sentences`: split on the ideographic full stop `。`,
strip each part, drop empty parts, and re-append `。` to every part but
the last. -/
def split_into_sentences (text : List Char) : List (List Char) :=
  let parts := splitOnChar '。' text
  parts.enum.filterMap fun pi =>
    let cleaned := pyStrip pi.2
    if cleaned = [] then none
    else if pi.1 < parts.length - 1 then some (cleaned ++ ['。'])
    else some cleaned

/-! ### `verifier.py` -/

/-- Python `int()` on a rational: truncation toward zero. -/
def pyInt (q : ℚ) : ℤ := if 0 ≤ q then ⌊q⌋ else ⌈q⌉

/-- The quantitative score of Stage 3a:
`int((cosine_similarity + 1) / 2 * 100)`. -/
def quantScore (cos : ℚ) : ℤ := pyInt ((cos + 1) / 2 * 100)

/-- The error dictionary returned by each `except` block of
`verify_sentence`: `{"decision": "Error", "reason": f"Error in {stage}
stage: {e}", "score": 0}`. -/
def errDict (stage msg : String) : VerdictDict :=
  ⟨none, 0, "Error", "Error in " ++ stage ++ " stage: " ++ msg, none⟩

/-- The dictionary returned when retrieval yields no documents. -/
def neiDict : VerdictDict :=
  ⟨none, 0, "Not Enough Information", "No relevant documents found.", none⟩

/-- The Stage 2 loop `for hit in rerank_response.results:
evidence_docs.append({... retrieved_docs[hit.index] ...})`: look every
returned index up in `docs`; an out-of-range index raises `IndexError`
(modelled as `none`). -/
def selectDocs (docs : List Record) : List ℕ → Option (List Record)
  | [] => some []
  | i :: is =>
    match docs.get? i with
    | none => none
    | some d => (selectDocs docs is).map fun rest => d :: rest

/-- Stage 2 body: query Cohere with the literal sentence and the
candidate texts, then re-project each returned `hit.index` onto
`retrieved_docs[hit.index]` (an out-of-range index raises `IndexError`,
whose `str()` is `"list index out of range"`). -/
def rerankStage (ops : Ops) (sentence : String) (docs : List Record) :
    Except String (List EvidenceItem) :=
  match ops.rerank sentence (docs.map (·.text)) 3 with
  | .error e => .error e
  | .ok hits =>
    match selectDocs docs hits with
    | none => .error "list index out of range"
    | some sel => .ok (sel.map fun d => ⟨d.text, d.source⟩)

/-- `FactChecker.verify_sentence`, with the trace of external calls made.
Stage 1 (HyDE generation, query embedding, search) and the empty-result
check; Stage 2 (rerank); Stage 3 (sentence and top-evidence embeddings,
cosine score, gpt-4o adjudication with per-field defaults). -/
def verify_sentence (ops : Ops) (sentence : String) (kb : KnowledgeBase) :
    VerdictDict × List Call :=
  match ops.chatHyde with
  | .error e => (errDict "Retrieval" e, [Call.chatHyde])
  | .ok hypo =>
    match ops.embed hypo with
    | .error e => (errDict "Retrieval" e, [Call.chatHyde, Call.embed hypo])
    | .ok qv =>
      let docs := kb.search ops.searchFail qv 10
      let t1 : List Call := [Call.chatHyde, Call.embed hypo, Call.search 10]
      if docs = [] then
        (neiDict, t1)
      else
        let t2 := t1 ++ [Call.rerank sentence (docs.map (·.text)) 3]
        match rerankStage ops sentence docs with
        | .error e => (errDict "Reranking" e, t2)
        | .ok evidence_docs =>
          match ops.embed sentence with
          | .error e => (errDict "Verification" e, t2 ++ [Call.embed sentence])
          | .ok sv =>
            match evidence_docs with
            | [] =>
              (errDict "Verification" "list index out of range",
                t2 ++ [Call.embed sentence])
            | ev0 :: rest =>
              match ops.embed ev0.text with
              | .error e =>
                (errDict "Verification" e,
                  t2 ++ [Call.embed sentence, Call.embed ev0.text])
              | .ok tv =>
                let t3 := t2 ++ [Call.embed sentence, Call.embed ev0.text,
                  Call.chatVerify]
                match ops.chatVerify with
                | .error e => (errDict "Verification" e, t3)
                | .ok dr =>
                  (⟨some sentence, quantScore (ops.cosine sv tv),
                    dr.1.getD "Error", dr.2.getD "No reason provided.",
                    some (ev0 :: rest)⟩, t3)

/-- The verification loop of `main`: skip blank sentences, verify each
remaining one in order, collect one result per verified sentence. -/
def verifyBatch (opsOf : String → Ops) (kb : KnowledgeBase)
    (sentences : List String) : List VerdictDict :=
  (sentences.filter fun s => !(pyStrip s.data).isEmpty).map
    fun s => (verify_sentence (opsOf s) s kb).1

/-! ### Concrete fixtures used by witnesses and counterexamples -/

/-- A Knowledge Base built over a single record. -/
def kbOne : KnowledgeBase := ⟨some [⟨[1], "E", "S1"⟩]⟩

/-- Oracles for a run whose only failure is the embedding call on the
sentence itself (Stage 3a, the scoring step): the HyDE document "H"
embeds fine, anything else raises. -/
def opsScoreFail : Ops :=
  ⟨.ok "H", fun t => if t = "H" then .ok [1] else .error "boom", false,
   fun _ _ _ => .ok [0], fun _ _ => 0, .ok (none, none)⟩

/-- Oracles for a fully successful run whose adjudication JSON parses
but carries neither a `decision` nor a `reason` field. -/
def opsNoFields : Ops :=
  ⟨.ok "H", fun _ => .ok [1], false, fun _ _ _ => .ok [0], fun _ _ => 0,
   .ok (none, none)⟩

/-- Oracles for a fully successful run. -/
def opsHappy : Ops :=
  ⟨.ok "H", fun _ => .ok [1], false, fun _ _ _ => .ok [0], fun _ _ => 0,
   .ok (some "Supported", some "because")⟩

/-- Oracles for a run whose HyDE generation call raises. -/
def opsFailHyde : Ops :=
  ⟨.error "boom", fun _ => .error "x", false, fun _ _ _ => .error "x",
   fun _ _ => 0, .error "x"⟩

/-! ### Theorems -/

/-! #### C10: termination of `chunk_text` -/

lemma chunkGo_isSome_of_le (size overlap : ℤ) (text : List Char) :
    ∀ (fuel : ℕ) (start : ℤ),
      (text.length : ℤ) ≤ start + (fuel : ℤ) * (size - overlap) →
      (chunkGo size overlap text fuel start).isSome = true := by
  intro fuel
  induction fuel with
  | zero =>
    intro start h
    simp only [Nat.cast_zero, zero_mul, add_zero] at h
    simp [chunkGo, not_lt.mpr h]
  | succ n ih =>
    intro start h
    by_cases hs : start < (text.length : ℤ)
    · have hstep : (text.length : ℤ) ≤ (start + (size - overlap)) + (n : ℤ) * (size - overlap) := by
        have : start + ((n : ℤ) + 1) * (size - overlap)
            = (start + (size - overlap)) + (n : ℤ) * (size - overlap) := by ring
        push_cast at h
        linarith
      simp [chunkGo, hs, Option.isSome_map, ih _ hstep]
    · simp [chunkGo, hs]

lemma chunkGo_none_of_nonpos (size overlap : ℤ) (text : List Char)
    (hd : size - overlap ≤ 0) (hlen : 0 < text.length) :
    ∀ (fuel : ℕ) (start : ℤ), start ≤ 0 →
      chunkGo size overlap text fuel start = none := by
  have hlen' : (0 : ℤ) < (text.length : ℤ) := by exact_mod_cast hlen
  intro fuel
  induction fuel with
  | zero =>
    intro start h
    simp [chunkGo, show start < (text.length : ℤ) by omega]
  | succ n ih =>
    intro start h
    simp [chunkGo, show start < (text.length : ℤ) by omega,
      ih (start + (size - overlap)) (by omega)]

/-- C10: For every document with non-empty text, `chunk_text` terminates
under the precondition `chunk_overlap < chunk_size` (fuel `len(text)`
suffices, since the start offset strictly increases each iteration);
when `chunk_overlap ≥ chunk_size` the loop's step is non-positive and
the loop never terminates (no amount of fuel completes it), so the
precondition is necessary. -/
theorem c10_chunk_text_termination (text : List Char) (size overlap : ℤ) :
    (overlap < size → (chunk_text text size overlap).isSome = true) ∧
    (text ≠ [] → size ≤ overlap →
      (∀ fuel, chunkGo size overlap text fuel 0 = none) ∧
      chunk_text text size overlap = none) := by
  constructor
  · intro h
    unfold chunk_text
    by_cases ht : text = []
    · simp [ht]
    · rw [if_neg ht]
      apply chunkGo_isSome_of_le size overlap text
      have h1 : (text.length : ℤ) ≤ (text.length : ℤ) * (size - overlap) :=
        le_mul_of_one_le_right (by positivity) (by omega)
      linarith
  · intro ht h
    have hlen : 0 < text.length := List.length_pos.mpr ht
    have hall : ∀ fuel, chunkGo size overlap text fuel 0 = none := fun fuel =>
      chunkGo_none_of_nonpos size overlap text (by omega) hlen fuel 0 le_rfl
    exact ⟨hall, by unfold chunk_text; rw [if_neg ht]; exact hall _⟩

theorem c10_witness :
    (chunk_text "abcde".data 3 1).isSome = true ∧
    chunkGo 2 2 "ab".data 7 0 = none :=
  ⟨(c10_chunk_text_termination "abcde".data 3 1).1 (by norm_num),
   ((c10_chunk_text_termination "ab".data 2 2).2 (by decide) (by norm_num)).1 7⟩

/-! #### C6: totality and ordering of `KnowledgeBase.search` -/

/-- C6: Knowledge-Base search is total (it is a function into lists and
never signals an error): it returns at most `top_k` records, ordered
most similar first (ascending squared L2 distance to the query), an
empty sequence when the index is unbuilt, and an empty sequence when
the search backend fails. -/
theorem c6_search_total (kb : KnowledgeBase) (fail : Bool) (qv : List ℚ) (k : ℕ) :
    (kb.search fail qv k).length ≤ k ∧
    List.Sorted (fun a b : Record => distSq qv a.vector ≤ distSq qv b.vector)
      (kb.search fail qv k) ∧
    (kb.table = none → kb.search fail qv k = []) ∧
    (fail = true → kb.search fail qv k = []) := by
  have hsorted : ∀ records : List Record,
      List.Sorted (fun a b : Record => distSq qv a.vector ≤ distSq qv b.vector)
        (knnSearch records qv k) := by
    intro records
    haveI : IsTotal Record (fun a b => distSq qv a.vector ≤ distSq qv b.vector) :=
      ⟨fun a b => le_total _ _⟩
    haveI : IsTrans Record (fun a b => distSq qv a.vector ≤ distSq qv b.vector) :=
      ⟨fun a b c hab hbc => le_trans hab hbc⟩
    exact List.Pairwise.sublist (List.take_sublist _ _)
      (List.sorted_insertionSort _ records)
  have hlen : ∀ records : List Record, (knnSearch records qv k).length ≤ k := by
    intro records
    unfold knnSearch
    simp [List.length_take]
  cases htab : kb.table with
  | none => simp [KnowledgeBase.search, htab]
  | some records =>
    cases fail with
    | false => simp [KnowledgeBase.search, htab, hsorted records, hlen records]
    | true => simp [KnowledgeBase.search, htab]

theorem c6_witness :
    KnowledgeBase.search ⟨none⟩ false [] 5 = [] ∧
    KnowledgeBase.search ⟨some []⟩ true [3] 2 = [] :=
  ⟨(c6_search_total ⟨none⟩ false [] 5).2.2.1 rfl,
   (c6_search_total ⟨some []⟩ true [3] 2).2.2.2 rfl⟩

/-! #### C7: failed build leaves the index unusable, message classified -/

/-- C7: When the batched embedding call during `build` fails, the
Knowledge Base is left with no index (`table = None`), every subsequent
search returns no results, and the failure is classified by matching the
error-message text: `"429"` → rate limited, else `"401"` → unauthorized,
else `"insufficient_quota"` → quota exceeded, else unknown. -/
theorem c7_build_embedding_failure (kb : KnowledgeBase) (chunks : List Chunk)
    (msg : String) (hne : chunks ≠ []) :
    (kb.build chunks (.error msg)).1.table = none ∧
    (∀ fail qv k, (kb.build chunks (.error msg)).1.search fail qv k = []) ∧
    (kb.build chunks (.error msg)).2 = some (classifyBuildError msg) ∧
    (containsSubstr msg "429" = true → classifyBuildError msg = .RateLimited) ∧
    (containsSubstr msg "429" = false → containsSubstr msg "401" = true →
      classifyBuildError msg = .Unauthorized) ∧
    (containsSubstr msg "429" = false → containsSubstr msg "401" = false →
      containsSubstr msg "insufficient_quota" = true →
      classifyBuildError msg = .QuotaExceeded) ∧
    (containsSubstr msg "429" = false → containsSubstr msg "401" = false →
      containsSubstr msg "insufficient_quota" = false →
      classifyBuildError msg = .Unknown) := by
  have hbuild : kb.build chunks (.error msg) = (⟨none⟩, some (classifyBuildError msg)) := by
    unfold KnowledgeBase.build
    rw [if_neg hne]
  rw [hbuild]
  refine ⟨rfl, fun fail qv k => rfl, rfl, ?_, ?_, ?_, ?_⟩ <;>
    · intros
      simp only [classifyBuildError, *]
      simp [*]

theorem c7_witness :
    ((KnowledgeBase.mk none).build [⟨"s", "t"⟩] (.error "Error code: 429")).1.table = none ∧
    ((KnowledgeBase.mk none).build [⟨"s", "t"⟩] (.error "Error code: 429")).1.search
      false [] 10 = [] ∧
    ((KnowledgeBase.mk none).build [⟨"s", "t"⟩] (.error "Error code: 429")).2
      = some .RateLimited ∧
    classifyBuildError "Error code: 429" = .RateLimited := by
  have h := c7_build_embedding_failure ⟨none⟩ [⟨"s", "t"⟩] "Error code: 429" (by decide)
  have hc : classifyBuildError "Error code: 429" = .RateLimited := h.2.2.2.1 (by decide)
  exact ⟨h.1, h.2.1 false [] 10, by rw [h.2.2.1, hc], hc⟩

/-! #### C8: `build([])` is a no-op -/

/-- C8 counterexample: on an already-built Knowledge Base, `build([])`
early-returns without touching `self.table`, so the Knowledge Base does
NOT end up in the unbuilt state: its table survives and search still
returns results. -/
theorem c8_counterexample :
    ((KnowledgeBase.mk (some [⟨[1], "t", "s"⟩])).build [] (.ok [])).1.table ≠ none ∧
    ((KnowledgeBase.mk (some [⟨[1], "t", "s"⟩])).build [] (.ok [])).1.search
      false [1] 10 = [⟨[1], "t", "s"⟩] := by
  constructor <;> decide

/-- C8 amended: `build([])` succeeds as a no-op (no error) and leaves
the Knowledge Base state unchanged; in particular a fresh (unbuilt)
Knowledge Base stays unbuilt, and search on it returns an empty
sequence. -/
theorem c8_build_empty_noop (kb : KnowledgeBase)
    (er : Except String (List (List ℚ))) :
    kb.build [] er = (kb, none) ∧
    ((KnowledgeBase.mk none).build [] er).1.table = none ∧
    (∀ fail qv k, ((KnowledgeBase.mk none).build [] er).1.search fail qv k = []) := by
  refine ⟨by simp [KnowledgeBase.build], by simp [KnowledgeBase.build],
    fun fail qv k => by simp [KnowledgeBase.build, KnowledgeBase.search]⟩

/-! #### C3: the quantitative score -/

/-- C3 counterexample: the code applies Python `int()` (truncation), not
`round`: at cosine similarity `0.999` the mapped value is `99.95`, which
the code turns into `99` while rounding gives `100`. -/
theorem c3_counterexample :
    quantScore (999/1000) = 99 ∧
    round ((((999 : ℚ)/1000) + 1) / 2 * 100) = 100 ∧
    quantScore (999/1000) ≠ round ((((999 : ℚ)/1000) + 1) / 2 * 100) := by
  have h1 : quantScore (999/1000) = 99 := by
    unfold quantScore pyInt
    rw [if_pos (by norm_num)]
    rw [Int.floor_eq_iff]
    constructor <;> norm_num
  have h2 : round ((((999 : ℚ)/1000) + 1) / 2 * 100) = 100 := by
    rw [round_eq, Int.floor_eq_iff]
    constructor <;> norm_num
  exact ⟨h1, h2, by rw [h1, h2]; decide⟩

/-- C3 amended: for cosine similarity `cos ∈ [-1,1]` the quantitative
score equals `⌊(cos+1)/2 * 100⌋` (truncation toward zero of a
non-negative value, i.e. the floor — not `round`), and therefore lies in
`[0,100]`. -/
theorem c3_quant_score_floor (cos : ℚ) (h1 : -1 ≤ cos) (h2 : cos ≤ 1) :
    quantScore cos = ⌊(cos + 1) / 2 * 100⌋ ∧
    0 ≤ quantScore cos ∧ quantScore cos ≤ 100 := by
  have hx : (0 : ℚ) ≤ (cos + 1) / 2 * 100 := by
    have h50 : (cos + 1) / 2 * 100 = (cos + 1) * 50 := by ring
    rw [h50]
    exact mul_nonneg (by linarith) (by norm_num)
  have hq : quantScore cos = ⌊(cos + 1) / 2 * 100⌋ := by
    unfold quantScore pyInt
    rw [if_pos hx]
  refine ⟨hq, ?_, ?_⟩
  · rw [hq]
    exact Int.floor_nonneg.mpr hx
  · rw [hq]
    have hle : (cos + 1) / 2 * 100 ≤ 100 := by
      have h50 : (cos + 1) / 2 * 100 = cos * 50 + 50 := by ring
      rw [h50]
      linarith
    calc ⌊(cos + 1) / 2 * 100⌋ ≤ ⌊(100 : ℚ)⌋ := Int.floor_mono hle
      _ = 100 := by norm_num

theorem c3_witness :
    quantScore (1/2) = ⌊(((1 : ℚ)/2) + 1) / 2 * 100⌋ ∧
    0 ≤ quantScore (1/2) ∧ quantScore (1/2) ≤ 100 :=
  c3_quant_score_floor (1/2) (by norm_num) (by norm_num)

/-! #### C9: sentence splitting -/

lemma mem_splitOnChar_no_sep (c : Char) :
    ∀ (l : List Char), ∀ p ∈ splitOnChar c l, c ∉ p := by
  intro l
  induction l with
  | nil =>
    intro p hp
    simp [splitOnChar] at hp
    simp [hp]
  | cons x xs ih =>
    intro p hp
    cases hs : splitOnChar c xs with
    | nil =>
      rw [splitOnChar, hs] at hp
      simp at hp
      simp [hp]
    | cons q qs =>
      simp only [splitOnChar, hs] at hp
      by_cases hx : x = c
      · rw [if_pos hx] at hp
        rcases List.mem_cons.mp hp with h | h
        · simp [h]
        · exact ih p (hs ▸ h)
      · rw [if_neg hx] at hp
        rcases List.mem_cons.mp hp with h | h
        · subst h
          intro hmem
          rcases List.mem_cons.mp hmem with h | h
          · exact hx h.symm
          · exact ih q (hs ▸ List.mem_cons_self q qs) h
        · exact ih p (hs ▸ List.mem_cons.mpr (Or.inr h))

lemma pyStrip_subset (l : List Char) : ∀ a ∈ pyStrip l, a ∈ l := by
  intro a ha
  unfold pyStrip at ha
  rw [List.mem_reverse] at ha
  have h1 : a ∈ (l.dropWhile pyIsSpace).reverse :=
    (List.dropWhile_sublist _).subset ha
  rw [List.mem_reverse] at h1
  exact (List.dropWhile_sublist _).subset h1

lemma exists_not_of_dropWhile_ne_nil (p : Char → Bool) :
    ∀ (l : List Char), l.dropWhile p ≠ [] →
      ∃ a ∈ l.dropWhile p, p a = false := by
  intro l
  induction l with
  | nil => intro h; simp at h
  | cons x xs ih =>
    intro h
    by_cases hx : p x
    · rw [List.dropWhile_cons, if_pos hx] at h ⊢
      exact ih h
    · rw [List.dropWhile_cons, if_neg hx] at h ⊢
      exact ⟨x, List.mem_cons_self x xs, by simpa using hx⟩

lemma pyStrip_all_space_of_eq_nil (l : List Char) (h : pyStrip l = []) :
    ∀ a ∈ l, pyIsSpace a = true := by
  unfold pyStrip at h
  rw [List.reverse_eq_nil_iff] at h
  have h2 : ∀ a ∈ (l.dropWhile pyIsSpace).reverse, pyIsSpace a = true :=
    List.dropWhile_eq_nil_iff.mp h
  have h3 : ∀ a ∈ l.dropWhile pyIsSpace, pyIsSpace a = true := by
    intro a ha
    exact h2 a (List.mem_reverse.mpr ha)
  intro a ha
  rw [← List.takeWhile_append_dropWhile pyIsSpace l] at ha
  rcases List.mem_append.mp ha with h | h
  · exact List.mem_takeWhile_imp h
  · exact h3 a h

lemma exists_not_space_of_pyStrip_ne_nil (l : List Char) (h : pyStrip l ≠ []) :
    ∃ a ∈ pyStrip l, pyIsSpace a = false := by
  unfold pyStrip at h ⊢
  rw [ne_eq, List.reverse_eq_nil_iff] at h
  obtain ⟨a, ha, hna⟩ := exists_not_of_dropWhile_ne_nil pyIsSpace _ h
  exact ⟨a, List.mem_reverse.mpr ha, hna⟩

/-- C9 counterexample: sentence splitting is not language-aware boundary
detection: an English text with two sentences (boundaries marked by `.`
and `!`) comes back as a single fragment, because the code splits only
on the ideographic full stop `。`. -/
theorem c9_counterexample :
    split_into_sentences ("Hello. World!".data) = ["Hello. World!".data] := by
  decide

/-- C9 amended: `split_into_sentences` performs naive punctuation-only
splitting on the ideographic full stop `。` (each returned fragment
contains `。` at most as its final character, re-appended by the code),
and every empty or whitespace-only fragment is filtered out: every
returned fragment has a non-whitespace character, and stripping it
never yields the empty string. -/
theorem c9_split_naive_and_filters (text s : List Char)
    (hmem : s ∈ split_into_sentences text) :
    (∃ a ∈ s, pyIsSpace a = false) ∧
    pyStrip s ≠ [] ∧
    ∀ a ∈ s.dropLast, a ≠ '。' := by
  unfold split_into_sentences at hmem
  rw [List.mem_filterMap] at hmem
  obtain ⟨⟨i, part⟩, hpi, hf⟩ := hmem
  have hpart : part ∈ splitOnChar '。' text := by
    have := List.mem_map_of_mem Prod.snd hpi
    rwa [List.enum_map_snd] at this
  have hnosep : '。' ∉ part := mem_splitOnChar_no_sep '。' text part hpart
  simp only at hf
  by_cases hcl : pyStrip part = []
  · rw [if_pos hcl] at hf
    exact absurd hf (by simp)
  · rw [if_neg hcl] at hf
    by_cases hi : i < (splitOnChar '。' text).length - 1
    · rw [if_pos hi] at hf
      have hs : s = pyStrip part ++ ['。'] := by
        injection hf with h
        exact h.symm
      subst hs
      have hex : ∃ a ∈ pyStrip part ++ ['。'], pyIsSpace a = false :=
        ⟨'。', List.mem_append.mpr (Or.inr (List.mem_singleton.mpr rfl)), by decide⟩
      refine ⟨hex, ?_, ?_⟩
      · intro hnil
        obtain ⟨a, ha, hna⟩ := hex
        have := pyStrip_all_space_of_eq_nil _ hnil a ha
        rw [this] at hna
        exact Bool.false_ne_true hna.symm
      · rw [List.dropLast_concat]
        intro a ha hac
        exact hnosep (hac ▸ pyStrip_subset part a ha)
    · rw [if_neg hi] at hf
      have hs : s = pyStrip part := by
        injection hf with h
        exact h.symm
      subst hs
      have hex : ∃ a ∈ pyStrip part, pyIsSpace a = false :=
        exists_not_space_of_pyStrip_ne_nil part hcl
      refine ⟨hex, ?_, ?_⟩
      · intro hnil
        obtain ⟨a, ha, hna⟩ := hex
        have := pyStrip_all_space_of_eq_nil _ hnil a ha
        rw [this] at hna
        exact Bool.false_ne_true hna.symm
      · intro a ha hac
        have h1 : a ∈ pyStrip part := (List.dropLast_sublist _).subset ha
        exact hnosep (hac ▸ pyStrip_subset part a h1)

theorem c9_witness :
    (∃ a ∈ "A。".data, pyIsSpace a = false) ∧
    pyStrip "A。".data ≠ [] ∧
    ∀ a ∈ ("A。".data).dropLast, a ≠ '。' :=
  c9_split_naive_and_filters "A。B".data "A。".data (by decide)

/-! #### Outcome equations for `verify_sentence` -/

lemma vs_hyde_err (ops : Ops) (s : String) (kb : KnowledgeBase) (e : String)
    (h : ops.chatHyde = .error e) :
    verify_sentence ops s kb = (errDict "Retrieval" e, [Call.chatHyde]) := by
  simp only [verify_sentence, h]

lemma vs_embed_err (ops : Ops) (s : String) (kb : KnowledgeBase) (hypo e : String)
    (h1 : ops.chatHyde = .ok hypo) (h2 : ops.embed hypo = .error e) :
    verify_sentence ops s kb =
      (errDict "Retrieval" e, [Call.chatHyde, Call.embed hypo]) := by
  simp only [verify_sentence, h1, h2]

lemma vs_nei (ops : Ops) (s : String) (kb : KnowledgeBase) (hypo : String) (qv : List ℚ)
    (h1 : ops.chatHyde = .ok hypo) (h2 : ops.embed hypo = .ok qv)
    (h3 : kb.search ops.searchFail qv 10 = []) :
    verify_sentence ops s kb =
      (neiDict, [Call.chatHyde, Call.embed hypo, Call.search 10]) := by
  simp only [verify_sentence, h1, h2]
  rw [if_pos h3]

lemma vs_rerank_err (ops : Ops) (s : String) (kb : KnowledgeBase) (hypo e : String)
    (qv : List ℚ)
    (h1 : ops.chatHyde = .ok hypo) (h2 : ops.embed hypo = .ok qv)
    (h3 : kb.search ops.searchFail qv 10 ≠ [])
    (h4 : rerankStage ops s (kb.search ops.searchFail qv 10) = .error e) :
    verify_sentence ops s kb =
      (errDict "Reranking" e,
        [Call.chatHyde, Call.embed hypo, Call.search 10,
         Call.rerank s ((kb.search ops.searchFail qv 10).map (·.text)) 3]) := by
  simp only [verify_sentence, h1, h2]
  rw [if_neg h3]
  simp only [h4]
  rfl

lemma vs_score_embed_err (ops : Ops) (s : String) (kb : KnowledgeBase) (hypo e : String)
    (qv : List ℚ) (evs : List EvidenceItem)
    (h1 : ops.chatHyde = .ok hypo) (h2 : ops.embed hypo = .ok qv)
    (h3 : kb.search ops.searchFail qv 10 ≠ [])
    (h4 : rerankStage ops s (kb.search ops.searchFail qv 10) = .ok evs)
    (h5 : ops.embed s = .error e) :
    verify_sentence ops s kb =
      (errDict "Verification" e,
        [Call.chatHyde, Call.embed hypo, Call.search 10,
         Call.rerank s ((kb.search ops.searchFail qv 10).map (·.text)) 3,
         Call.embed s]) := by
  simp only [verify_sentence, h1, h2]
  rw [if_neg h3]
  simp only [h4, h5]
  rfl

lemma vs_evs_nil (ops : Ops) (s : String) (kb : KnowledgeBase) (hypo : String)
    (qv sv : List ℚ)
    (h1 : ops.chatHyde = .ok hypo) (h2 : ops.embed hypo = .ok qv)
    (h3 : kb.search ops.searchFail qv 10 ≠ [])
    (h4 : rerankStage ops s (kb.search ops.searchFail qv 10) = .ok [])
    (h5 : ops.embed s = .ok sv) :
    verify_sentence ops s kb =
      (errDict "Verification" "list index out of range",
        [Call.chatHyde, Call.embed hypo, Call.search 10,
         Call.rerank s ((kb.search ops.searchFail qv 10).map (·.text)) 3,
         Call.embed s]) := by
  simp only [verify_sentence, h1, h2]
  rw [if_neg h3]
  simp only [h4, h5]
  rfl

lemma vs_top_embed_err (ops : Ops) (s : String) (kb : KnowledgeBase) (hypo e : String)
    (qv sv : List ℚ) (ev0 : EvidenceItem) (rest : List EvidenceItem)
    (h1 : ops.chatHyde = .ok hypo) (h2 : ops.embed hypo = .ok qv)
    (h3 : kb.search ops.searchFail qv 10 ≠ [])
    (h4 : rerankStage ops s (kb.search ops.searchFail qv 10) = .ok (ev0 :: rest))
    (h5 : ops.embed s = .ok sv) (h6 : ops.embed ev0.text = .error e) :
    verify_sentence ops s kb =
      (errDict "Verification" e,
        [Call.chatHyde, Call.embed hypo, Call.search 10,
         Call.rerank s ((kb.search ops.searchFail qv 10).map (·.text)) 3,
         Call.embed s, Call.embed ev0.text]) := by
  simp only [verify_sentence, h1, h2]
  rw [if_neg h3]
  simp only [h4, h5, h6]
  rfl

lemma vs_adj_err (ops : Ops) (s : String) (kb : KnowledgeBase) (hypo e : String)
    (qv sv tv : List ℚ) (ev0 : EvidenceItem) (rest : List EvidenceItem)
    (h1 : ops.chatHyde = .ok hypo) (h2 : ops.embed hypo = .ok qv)
    (h3 : kb.search ops.searchFail qv 10 ≠ [])
    (h4 : rerankStage ops s (kb.search ops.searchFail qv 10) = .ok (ev0 :: rest))
    (h5 : ops.embed s = .ok sv) (h6 : ops.embed ev0.text = .ok tv)
    (h7 : ops.chatVerify = .error e) :
    verify_sentence ops s kb =
      (errDict "Verification" e,
        [Call.chatHyde, Call.embed hypo, Call.search 10,
         Call.rerank s ((kb.search ops.searchFail qv 10).map (·.text)) 3,
         Call.embed s, Call.embed ev0.text, Call.chatVerify]) := by
  simp only [verify_sentence, h1, h2]
  rw [if_neg h3]
  simp only [h4, h5, h6, h7]
  rfl

lemma vs_success (ops : Ops) (s : String) (kb : KnowledgeBase) (hypo : String)
    (qv sv tv : List ℚ) (ev0 : EvidenceItem) (rest : List EvidenceItem)
    (dec reas : Option String)
    (h1 : ops.chatHyde = .ok hypo) (h2 : ops.embed hypo = .ok qv)
    (h3 : kb.search ops.searchFail qv 10 ≠ [])
    (h4 : rerankStage ops s (kb.search ops.searchFail qv 10) = .ok (ev0 :: rest))
    (h5 : ops.embed s = .ok sv) (h6 : ops.embed ev0.text = .ok tv)
    (h7 : ops.chatVerify = .ok (dec, reas)) :
    verify_sentence ops s kb =
      (⟨some s, quantScore (ops.cosine sv tv), dec.getD "Error",
        reas.getD "No reason provided.", some (ev0 :: rest)⟩,
        [Call.chatHyde, Call.embed hypo, Call.search 10,
         Call.rerank s ((kb.search ops.searchFail qv 10).map (·.text)) 3,
         Call.embed s, Call.embed ev0.text, Call.chatVerify]) := by
  simp only [verify_sentence, h1, h2]
  rw [if_neg h3]
  simp only [h4, h5, h6, h7]
  rfl

/-! #### Shape and trace lemmas for `verify_sentence` -/

lemma vs_record_shape (ops : Ops) (s : String) (kb : KnowledgeBase) :
    ((verify_sentence ops s kb).1.original_sentence = none ∧
     (verify_sentence ops s kb).1.evidence = none ∧
     ((verify_sentence ops s kb).1.decision = "Error" ∨
      (verify_sentence ops s kb).1.decision = "Not Enough Information")) ∨
    ((verify_sentence ops s kb).1.original_sentence = some s ∧
     ∃ evs, (verify_sentence ops s kb).1.evidence = some evs ∧ evs ≠ []) := by
  rcases hh : ops.chatHyde with e | hypo
  · rw [vs_hyde_err ops s kb e hh]
    left
    exact ⟨rfl, rfl, Or.inl rfl⟩
  · rcases he : ops.embed hypo with e | qv
    · rw [vs_embed_err ops s kb hypo e hh he]
      left
      exact ⟨rfl, rfl, Or.inl rfl⟩
    · by_cases hd : kb.search ops.searchFail qv 10 = []
      · rw [vs_nei ops s kb hypo qv hh he hd]
        left
        exact ⟨rfl, rfl, Or.inr rfl⟩
      · rcases hr : rerankStage ops s (kb.search ops.searchFail qv 10) with e | evs
        · rw [vs_rerank_err ops s kb hypo e qv hh he hd hr]
          left
          exact ⟨rfl, rfl, Or.inl rfl⟩
        · rcases hsv : ops.embed s with e | sv
          · rw [vs_score_embed_err ops s kb hypo e qv evs hh he hd hr hsv]
            left
            exact ⟨rfl, rfl, Or.inl rfl⟩
          · cases evs with
            | nil =>
              rw [vs_evs_nil ops s kb hypo qv sv hh he hd hr hsv]
              left
              exact ⟨rfl, rfl, Or.inl rfl⟩
            | cons ev0 rest =>
              rcases htv : ops.embed ev0.text with e | tv
              · rw [vs_top_embed_err ops s kb hypo e qv sv ev0 rest hh he hd hr hsv htv]
                left
                exact ⟨rfl, rfl, Or.inl rfl⟩
              · rcases hcv : ops.chatVerify with e | dr
                · rw [vs_adj_err ops s kb hypo e qv sv tv ev0 rest hh he hd hr hsv htv hcv]
                  left
                  exact ⟨rfl, rfl, Or.inl rfl⟩
                · obtain ⟨dec, reas⟩ := dr
                  rw [vs_success ops s kb hypo qv sv tv ev0 rest dec reas hh he hd hr hsv htv hcv]
                  right
                  exact ⟨rfl, ev0 :: rest, rfl, by simp⟩

lemma vs_trace_rerank (ops : Ops) (s : String) (kb : KnowledgeBase)
    (q : String) (d : List String) (n : ℕ)
    (h : Call.rerank q d n ∈ (verify_sentence ops s kb).2) : q = s ∧ n = 3 := by
  rcases hh : ops.chatHyde with e | hypo
  · rw [vs_hyde_err ops s kb e hh] at h
    simp at h
  · rcases he : ops.embed hypo with e | qv
    · rw [vs_embed_err ops s kb hypo e hh he] at h
      simp at h
    · by_cases hd : kb.search ops.searchFail qv 10 = []
      · rw [vs_nei ops s kb hypo qv hh he hd] at h
        simp at h
      · rcases hr : rerankStage ops s (kb.search ops.searchFail qv 10) with e | evs
        · rw [vs_rerank_err ops s kb hypo e qv hh he hd hr] at h
          simp at h
          exact ⟨h.1, h.2.2⟩
        · rcases hsv : ops.embed s with e | sv
          · rw [vs_score_embed_err ops s kb hypo e qv evs hh he hd hr hsv] at h
            simp at h
            exact ⟨h.1, h.2.2⟩
          · cases evs with
            | nil =>
              rw [vs_evs_nil ops s kb hypo qv sv hh he hd hr hsv] at h
              simp at h
              exact ⟨h.1, h.2.2⟩
            | cons ev0 rest =>
              rcases htv : ops.embed ev0.text with e | tv
              · rw [vs_top_embed_err ops s kb hypo e qv sv ev0 rest hh he hd hr hsv htv] at h
                simp at h
                exact ⟨h.1, h.2.2⟩
              · rcases hcv : ops.chatVerify with e | dr
                · rw [vs_adj_err ops s kb hypo e qv sv tv ev0 rest hh he hd hr hsv htv hcv] at h
                  simp at h
                  exact ⟨h.1, h.2.2⟩
                · obtain ⟨dec, reas⟩ := dr
                  rw [vs_success ops s kb hypo qv sv tv ev0 rest dec reas hh he hd hr hsv htv hcv] at h
                  simp at h
                  exact ⟨h.1, h.2.2⟩

/-! #### `selectDocs` lemmas -/

lemma selectDocs_mem (docs : List Record) :
    ∀ (hits : List ℕ) (sel : List Record), selectDocs docs hits = some sel →
      ∀ d ∈ sel, d ∈ docs := by
  intro hits
  induction hits with
  | nil =>
    intro sel h d hd
    simp only [selectDocs, Option.some.injEq] at h
    subst h
    simp at hd
  | cons i is ih =>
    intro sel h d hd
    simp only [selectDocs] at h
    cases hg : docs.get? i with
    | none =>
      rw [hg] at h
      simp at h
    | some d0 =>
      rw [hg] at h
      cases hrec : selectDocs docs is with
      | none =>
        rw [hrec] at h
        simp at h
      | some rest =>
        rw [hrec] at h
        simp only [Option.map_some', Option.some.injEq] at h
        subst h
        rcases List.mem_cons.mp hd with h | h
        · exact h ▸ List.get?_mem hg
        · exact ih rest hrec d h

lemma selectDocs_length (docs : List Record) :
    ∀ (hits : List ℕ) (sel : List Record), selectDocs docs hits = some sel →
      sel.length = hits.length := by
  intro hits
  induction hits with
  | nil =>
    intro sel h
    simp only [selectDocs, Option.some.injEq] at h
    subst h
    rfl
  | cons i is ih =>
    intro sel h
    simp only [selectDocs] at h
    cases hg : docs.get? i with
    | none =>
      rw [hg] at h
      simp at h
    | some d0 =>
      rw [hg] at h
      cases hrec : selectDocs docs is with
      | none =>
        rw [hrec] at h
        simp at h
      | some rest =>
        rw [hrec] at h
        simp only [Option.map_some', Option.some.injEq] at h
        subst h
        simp [ih rest hrec]

lemma selectDocs_get? (docs : List Record) :
    ∀ (hits : List ℕ) (sel : List Record), selectDocs docs hits = some sel →
      ∀ k, sel.get? k = (hits.get? k).bind fun i => docs.get? i := by
  intro hits
  induction hits with
  | nil =>
    intro sel h k
    simp only [selectDocs, Option.some.injEq] at h
    subst h
    simp
  | cons i is ih =>
    intro sel h k
    simp only [selectDocs] at h
    cases hg : docs.get? i with
    | none =>
      rw [hg] at h
      simp at h
    | some d0 =>
      rw [hg] at h
      cases hrec : selectDocs docs is with
      | none =>
        rw [hrec] at h
        simp at h
      | some rest =>
        rw [hrec] at h
        simp only [Option.map_some', Option.some.injEq] at h
        subst h
        cases k with
        | zero => exact hg.symm
        | succ n => exact ih rest hrec n

/-! #### C2: empty retrieval short-circuits to Not Enough Information -/

/-- C2: when vector retrieval returns zero candidates (in particular
whenever the Knowledge Base is unbuilt), `verify_sentence` returns the
terminal Not Enough Information verdict with score 0, and the trace of
external calls is exactly the retrieval calls: reranking, scoring and
adjudication are never invoked. -/
theorem c2_empty_retrieval_nei (ops : Ops) (s : String) (kb : KnowledgeBase)
    (hypo : String) (qv : List ℚ)
    (h1 : ops.chatHyde = .ok hypo) (h2 : ops.embed hypo = .ok qv)
    (h3 : kb.table = none ∨ kb.search ops.searchFail qv 10 = []) :
    (verify_sentence ops s kb).1 = neiDict ∧
    (verify_sentence ops s kb).1.score = 0 ∧
    (verify_sentence ops s kb).1.decision = "Not Enough Information" ∧
    (verify_sentence ops s kb).1.reason = "No relevant documents found." ∧
    (verify_sentence ops s kb).2 = [Call.chatHyde, Call.embed hypo, Call.search 10] ∧
    (∀ q d n, Call.rerank q d n ∉ (verify_sentence ops s kb).2) ∧
    Call.chatVerify ∉ (verify_sentence ops s kb).2 := by
  have hsearch : kb.search ops.searchFail qv 10 = [] := by
    rcases h3 with h | h
    · simp [KnowledgeBase.search, h]
    · exact h
  rw [vs_nei ops s kb hypo qv h1 h2 hsearch]
  refine ⟨rfl, rfl, rfl, rfl, rfl, ?_, ?_⟩
  · intro q d n
    simp
  · simp

theorem c2_witness :
    (verify_sentence opsNoFields "s" ⟨none⟩).1 = neiDict ∧
    (verify_sentence opsNoFields "s" ⟨none⟩).2 =
      [Call.chatHyde, Call.embed "H", Call.search 10] := by
  have h := c2_empty_retrieval_nei opsNoFields "s" ⟨none⟩ "H" [1] rfl rfl (Or.inl rfl)
  exact ⟨h.1, h.2.2.2.2.1⟩

/-! #### C4: reranking never invents evidence -/

/-- C4: every `EvidenceItem` output by the reranking stage corresponds
by `(text, source)` to some retrieved candidate; the output follows the
reranker's returned index order exactly and is no longer than the hit
list (so at most `top_n = 3` whenever the service honours `top_n`); and
every rerank call made by `verify_sentence` uses the literal claim text
as the query (never the hypothetical elaboration) with `top_n = 3`. -/
theorem c4_rerank_faithful :
    (∀ (ops : Ops) (s : String) (docs : List Record) (evs : List EvidenceItem),
      rerankStage ops s docs = .ok evs →
      ∀ it ∈ evs, ∃ d ∈ docs, it.text = d.text ∧ it.source = d.source) ∧
    (∀ (ops : Ops) (s : String) (docs : List Record) (hits : List ℕ)
        (evs : List EvidenceItem),
      ops.rerank s (docs.map (·.text)) 3 = .ok hits →
      rerankStage ops s docs = .ok evs →
      evs.length = hits.length ∧
      (hits.length ≤ 3 → evs.length ≤ 3) ∧
      (∀ k, evs.get? k = (hits.get? k).bind fun i =>
        (docs.get? i).map fun d => EvidenceItem.mk d.text d.source)) ∧
    (∀ (ops : Ops) (s : String) (kb : KnowledgeBase) (q : String)
        (d : List String) (n : ℕ),
      Call.rerank q d n ∈ (verify_sentence ops s kb).2 → q = s ∧ n = 3) := by
  refine ⟨?_, ?_, ?_⟩
  · intro ops s docs evs h it hit
    unfold rerankStage at h
    cases hr : ops.rerank s (docs.map (·.text)) 3 with
    | error e =>
      simp only [hr] at h
      exact absurd h (by simp)
    | ok hits =>
      simp only [hr] at h
      cases hsel : selectDocs docs hits with
      | none =>
        simp only [hsel] at h
        exact absurd h (by simp)
      | some sel =>
        simp only [hsel, Except.ok.injEq] at h
        subst h
        rw [List.mem_map] at hit
        obtain ⟨d, hd, hdit⟩ := hit
        subst hdit
        exact ⟨d, selectDocs_mem docs hits sel hsel d hd, rfl, rfl⟩
  · intro ops s docs hits evs hr h
    unfold rerankStage at h
    simp only [hr] at h
    cases hsel : selectDocs docs hits with
    | none =>
      simp only [hsel] at h
      exact absurd h (by simp)
    | some sel =>
      simp only [hsel, Except.ok.injEq] at h
      subst h
      have hlen := selectDocs_length docs hits sel hsel
      refine ⟨by simp [hlen], ?_, ?_⟩
      · intro h3
        simp only [List.length_map, hlen]
        exact h3
      · intro k
        rw [List.get?_map, selectDocs_get? docs hits sel hsel k]
        cases hk : hits.get? k with
        | none => simp
        | some i => simp
  · intro ops s kb q d n h
    exact vs_trace_rerank ops s kb q d n h

theorem c4_witness :
    ([(⟨"E", "S1"⟩ : EvidenceItem)].length = ([0] : List ℕ).length) ∧
    ([(⟨"E", "S1"⟩ : EvidenceItem)].length ≤ 3) ∧
    ("S" = "S" ∧ (3 : ℕ) = 3) := by
  have h2 := c4_rerank_faithful.2.1 opsHappy "S" [⟨[1], "E", "S1"⟩] [0]
    [⟨"E", "S1"⟩] rfl rfl
  have h3 := c4_rerank_faithful.2.2 opsHappy "S" kbOne "S"
    ([(⟨[1], "E", "S1"⟩ : Record)].map (·.text)) 3 (by decide)
  exact ⟨h2.1, h2.2.1 (by norm_num), h3⟩

/-! #### C5: verdict record shape -/

/-- C5 counterexample: an Error outcome returned by `verify_sentence`
is not a full five-field Verdict record: the claim key
(`original_sentence`) and the `evidence` key are absent from the
returned dictionary. -/
theorem c5_counterexample :
    (verify_sentence opsFailHyde "s" ⟨none⟩).1.original_sentence = none ∧
    (verify_sentence opsFailHyde "s" ⟨none⟩).1.evidence = none ∧
    (verify_sentence opsFailHyde "s" ⟨none⟩).1.decision = "Error" := by
  rw [vs_hyde_err opsFailHyde "s" ⟨none⟩ "boom" rfl]
  exact ⟨rfl, rfl, rfl⟩

/-- C5 amended: every result of `verify_sentence` carries `decision`,
`reason` and `score`; Error and Not Enough Information outcomes carry
only those three keys (`original_sentence` and `evidence` are absent),
while a run that completes adjudication returns all five fields with
the claim under `original_sentence` and non-empty evidence; an
adjudicator response that parses but misses the `decision`/`reason`
fields degrades to `decision = "Error"` and the default reason inside a
full record, with no exception propagating. -/
theorem c5_verdict_fields :
    (∀ (ops : Ops) (s : String) (kb : KnowledgeBase),
      ((verify_sentence ops s kb).1.original_sentence = none ∧
       (verify_sentence ops s kb).1.evidence = none ∧
       ((verify_sentence ops s kb).1.decision = "Error" ∨
        (verify_sentence ops s kb).1.decision = "Not Enough Information")) ∨
      ((verify_sentence ops s kb).1.original_sentence = some s ∧
       ∃ evs, (verify_sentence ops s kb).1.evidence = some evs ∧ evs ≠ [])) ∧
    (∀ (ops : Ops) (s : String) (kb : KnowledgeBase) (hypo : String)
        (qv sv tv : List ℚ) (ev0 : EvidenceItem) (rest : List EvidenceItem),
      ops.chatHyde = .ok hypo → ops.embed hypo = .ok qv →
      kb.search ops.searchFail qv 10 ≠ [] →
      rerankStage ops s (kb.search ops.searchFail qv 10) = .ok (ev0 :: rest) →
      ops.embed s = .ok sv → ops.embed ev0.text = .ok tv →
      ops.chatVerify = .ok (none, none) →
      (verify_sentence ops s kb).1.decision = "Error" ∧
      (verify_sentence ops s kb).1.reason = "No reason provided." ∧
      (verify_sentence ops s kb).1.original_sentence = some s ∧
      (verify_sentence ops s kb).1.evidence = some (ev0 :: rest)) := by
  constructor
  · intro ops s kb
    exact vs_record_shape ops s kb
  · intro ops s kb hypo qv sv tv ev0 rest h1 h2 h3 h4 h5 h6 h7
    rw [vs_success ops s kb hypo qv sv tv ev0 rest none none h1 h2 h3 h4 h5 h6 h7]
    exact ⟨rfl, rfl, rfl, rfl⟩

theorem c5_witness :
    (verify_sentence opsNoFields "S" kbOne).1.decision = "Error" ∧
    (verify_sentence opsNoFields "S" kbOne).1.reason = "No reason provided." ∧
    (verify_sentence opsNoFields "S" kbOne).1.original_sentence = some "S" ∧
    (verify_sentence opsNoFields "S" kbOne).1.evidence =
      some [⟨"E", "S1"⟩] :=
  c5_verdict_fields.2 opsNoFields "S" kbOne "H" [1] [1] [1] ⟨"E", "S1"⟩ []
    rfl rfl (by decide) rfl rfl rfl rfl

/-! #### C1: stage-failure isolation -/

/-- C1 counterexample: a failure injected at the Scoring step (the
embedding of the sentence at the start of Stage 3) produces an Error
verdict whose reason names the code's combined "Verification" stage —
the word "Scoring" never appears, so the reason does not name the
Scoring stage as the claim requires. -/
theorem c1_counterexample :
    (verify_sentence opsScoreFail "S0" kbOne).1.decision = "Error" ∧
    (verify_sentence opsScoreFail "S0" kbOne).1.score = 0 ∧
    (verify_sentence opsScoreFail "S0" kbOne).1.reason =
      "Error in Verification stage: boom" ∧
    containsSubstr (verify_sentence opsScoreFail "S0" kbOne).1.reason
      "Scoring" = false := by
  have heq := vs_score_embed_err opsScoreFail "S0" kbOne "H" "boom" [1]
    [⟨"E", "S1"⟩] rfl rfl (by decide) rfl rfl
  rw [heq]
  exact ⟨rfl, rfl, rfl, by decide⟩

/-- C1 amended: a failure raised in the Retrieval or Reranking stage
yields a terminal Error verdict whose reason names that stage; failures
in the Scoring and Adjudication steps both yield a reason naming the
code's combined "Verification" stage (its single third try-block)
rather than "Scoring" or "Adjudication" individually; every such
verdict has score 0 and decision "Error", no exception propagates, and
verification of the next claim in a batch still runs and contributes
its own verdict. -/
theorem c1_stage_failure_isolation (ops : Ops) (s : String) (kb : KnowledgeBase)
    (e : String) :
    (ops.chatHyde = .error e →
      (verify_sentence ops s kb).1 = errDict "Retrieval" e) ∧
    (∀ hypo, ops.chatHyde = .ok hypo → ops.embed hypo = .error e →
      (verify_sentence ops s kb).1 = errDict "Retrieval" e) ∧
    (∀ hypo qv, ops.chatHyde = .ok hypo → ops.embed hypo = .ok qv →
      kb.search ops.searchFail qv 10 ≠ [] →
      rerankStage ops s (kb.search ops.searchFail qv 10) = .error e →
      (verify_sentence ops s kb).1 = errDict "Reranking" e) ∧
    (∀ hypo qv evs, ops.chatHyde = .ok hypo → ops.embed hypo = .ok qv →
      kb.search ops.searchFail qv 10 ≠ [] →
      rerankStage ops s (kb.search ops.searchFail qv 10) = .ok evs →
      ops.embed s = .error e →
      (verify_sentence ops s kb).1 = errDict "Verification" e) ∧
    (∀ hypo qv sv tv ev0 rest, ops.chatHyde = .ok hypo → ops.embed hypo = .ok qv →
      kb.search ops.searchFail qv 10 ≠ [] →
      rerankStage ops s (kb.search ops.searchFail qv 10) = .ok (ev0 :: rest) →
      ops.embed s = .ok sv → ops.embed ev0.text = .ok tv →
      ops.chatVerify = .error e →
      (verify_sentence ops s kb).1 = errDict "Verification" e) ∧
    ((errDict "Retrieval" e).score = 0 ∧ (errDict "Reranking" e).score = 0 ∧
     (errDict "Verification" e).score = 0 ∧
     (errDict "Retrieval" e).decision = "Error" ∧
     (errDict "Reranking" e).decision = "Error" ∧
     (errDict "Verification" e).decision = "Error" ∧
     (errDict "Retrieval" e).reason = "Error in Retrieval stage: " ++ e ∧
     (errDict "Reranking" e).reason = "Error in Reranking stage: " ++ e ∧
     (errDict "Verification" e).reason = "Error in Verification stage: " ++ e) ∧
    (∀ (opsOf : String → Ops) (rest : List String),
      (pyStrip s.data).isEmpty = false →
      verifyBatch opsOf kb (s :: rest) =
        (verify_sentence (opsOf s) s kb).1 :: verifyBatch opsOf kb rest) := by
  refine ⟨?_, ?_, ?_, ?_, ?_, ?_, ?_⟩
  · intro h
    rw [vs_hyde_err ops s kb e h]
  · intro hypo h1 h2
    rw [vs_embed_err ops s kb hypo e h1 h2]
  · intro hypo qv h1 h2 h3 h4
    rw [vs_rerank_err ops s kb hypo e qv h1 h2 h3 h4]
  · intro hypo qv evs h1 h2 h3 h4 h5
    rw [vs_score_embed_err ops s kb hypo e qv evs h1 h2 h3 h4 h5]
  · intro hypo qv sv tv ev0 rest h1 h2 h3 h4 h5 h6 h7
    rw [vs_adj_err ops s kb hypo e qv sv tv ev0 rest h1 h2 h3 h4 h5 h6 h7]
  · exact ⟨rfl, rfl, rfl, rfl, rfl, rfl, rfl, rfl, rfl⟩
  · intro opsOf rest hs
    unfold verifyBatch
    simp [List.filter_cons, hs]

theorem c1_witness :
    (verify_sentence opsFailHyde "s" ⟨none⟩).1 = errDict "Retrieval" "boom" ∧
    (errDict "Retrieval" "boom").score = 0 ∧
    (errDict "Retrieval" "boom").decision = "Error" ∧
    (errDict "Retrieval" "boom").reason = "Error in Retrieval stage: boom" ∧
    verifyBatch (fun _ => opsFailHyde) ⟨none⟩ ["a", "b"] =
      [(verify_sentence opsFailHyde "a" ⟨none⟩).1,
       (verify_sentence opsFailHyde "b" ⟨none⟩).1] := by
  have h := c1_stage_failure_isolation opsFailHyde "s" ⟨none⟩ "boom"
  have ha := c1_stage_failure_isolation opsFailHyde "a" ⟨none⟩ "boom"
  have hb := c1_stage_failure_isolation opsFailHyde "b" ⟨none⟩ "boom"
  refine ⟨h.1 rfl, h.2.2.2.2.2.1.1, h.2.2.2.2.2.1.2.2.2.1,
    h.2.2.2.2.2.1.2.2.2.2.2.2.1, ?_⟩
  rw [ha.2.2.2.2.2.2 (fun _ => opsFailHyde) ["b"] (by decide),
    hb.2.2.2.2.2.2 (fun _ => opsFailHyde) [] (by decide)]
  rfl
